import Mathlib

/-!
Verification of the stock-code OCR core of `daily_stock_analysis`
(`src/ocr_service.py` and `api/v1/endpoints/ocr.py`).

Python strings are modelled as lists of unicode scalar characters
(`PyStr`); the ASCII character classes used by the source's regular
expressions map to Lean's ASCII `Char` predicates.
-/

/-- Python `str`, modelled as a list of characters. -/
abbrev PyStr := List Char

/-- Whitespace removed by Python `str.strip()` with no argument: the
characters for which `str.isspace()` holds (the Unicode whitespace set:
tab through carriage return, the separator controls U+001C-U+001F, space,
next line U+0085, no-break space U+00A0, ogham space U+1680, the U+2000
range of typographic spaces, the line and paragraph separators, narrow
no-break space, medium mathematical space, and ideographic space). -/
def isPyWs (c : Char) : Bool :=
  decide ((9 ≤ c.toNat ∧ c.toNat ≤ 13) ∨ (28 ≤ c.toNat ∧ c.toNat ≤ 32)
    ∨ c.toNat = 133 ∨ c.toNat = 160 ∨ c.toNat = 5760
    ∨ (8192 ≤ c.toNat ∧ c.toNat ≤ 8202) ∨ c.toNat = 8232 ∨ c.toNat = 8233
    ∨ c.toNat = 8239 ∨ c.toNat = 8287 ∨ c.toNat = 12288)

/-- Python `str.strip()`: drop whitespace from both ends. -/
def pyStrip (s : PyStr) : PyStr := (s.dropWhile isPyWs).rdropWhile isPyWs

/-- The `valid_prefixes` list of `StockOCRService._is_valid_code`. -/
def valid_prefixes : List PyStr :=
  [ "600".data, "601".data, "603".data, "605".data,
    "000".data, "001".data, "002".data,
    "300".data, "301".data,
    "688".data, "689".data,
    "830".data, "831".data, "832".data, "833".data,
    "430".data, "420".data ]

/-- Python `str.upper()` for one character.  ASCII letters map into
`A`-`Z`.  Exactly ten further characters have an uppercase image that
consists solely of ASCII letters — ß (SS), ſ (S), ı (I) and the Latin
ligatures ﬀ ﬁ ﬂ ﬃ ﬄ ﬅ ﬆ (per the Unicode `SpecialCasing`/`UnicodeData`
tables) — and they are expanded accordingly.  Every other character's
uppercase image contains at least one character outside `A`-`Z` whose
identity the validator never inspects (it only asks whether the image is
1 to 5 characters of `A`-`Z`), so it is modelled by the character itself. -/
def pyUpperChar (c : Char) : List Char :=
  if c = 'ß' then ['S', 'S']
  else if c = 'ſ' then ['S']
  else if c = 'ı' then ['I']
  else if c = 'ﬀ' then ['F', 'F']
  else if c = 'ﬁ' then ['F', 'I']
  else if c = 'ﬂ' then ['F', 'L']
  else if c = 'ﬃ' then ['F', 'F', 'I']
  else if c = 'ﬄ' then ['F', 'F', 'L']
  else if c = 'ﬅ' then ['S', 'T']
  else if c = 'ﬆ' then ['S', 'T']
  else [Char.toUpper c]

/-- Python `str.upper()`: the concatenation of the per-character uppercase
images (uppercasing is context-free). -/
def pyUpper (s : PyStr) : PyStr := (s.map pyUpperChar).flatten

/-- Embeds `StockOCRService._is_valid_code`: a 6-digit string is accepted iff it
starts with a registered prefix; any 5-digit string is accepted; a string
whose `upper()` image is 1 to 5 characters of `A`-`Z` is accepted; anything
else is rejected.  (`re.match` with the anchored patterns of the source is
rendered as a length test plus a per-character class test.) -/
def is_valid_code (code : PyStr) : Bool :=
  if code.length == 6 && code.all Char.isDigit then
    valid_prefixes.any (fun p => p.isPrefixOf code)
  else if code.length == 5 && code.all Char.isDigit then
    true
  else if 1 ≤ (pyUpper code).length && (pyUpper code).length ≤ 5
      && (pyUpper code).all Char.isUpper then
    true
  else
    false

/-- The loop of `StockOCRService._validate_codes`: strip each candidate,
skip it when already seen, and append it (recording it as seen) when it
passes `_is_valid_code`.  The Python `seen` set is modelled as the list of
codes accepted so far (only accepted codes are ever added to it). -/
def validateLoop (seen : List PyStr) : List PyStr → List PyStr
  | [] => []
  | c :: rest =>
    let code := pyStrip c
    if seen.contains code then validateLoop seen rest
    else if is_valid_code code then code :: validateLoop (code :: seen) rest
    else validateLoop seen rest

/-- Embeds `StockOCRService._validate_codes`. -/
def validate_codes (codes : List PyStr) : List PyStr := validateLoop [] codes

/-! Market-format rules as the spec states them in §4.4, for comparison
with the code's validator. -/

/-- Spec §4.4 A-share rule: 6 ASCII digits whose first three digits are a
registered prefix. -/
def spec_a_share (c : PyStr) : Bool :=
  c.length == 6 && c.all Char.isDigit && valid_prefixes.contains (c.take 3)

/-- Spec §4.4 Hong-Kong rule: exactly 5 ASCII digits. -/
def spec_hk (c : PyStr) : Bool :=
  c.length == 5 && c.all Char.isDigit

/-- Spec §4.4 US rule: 1 to 5 ASCII letters, case-insensitive. -/
def spec_us (c : PyStr) : Bool :=
  1 ≤ c.length && c.length ≤ 5 && c.all Char.isAlpha

/-- How many of the three §4.4 market-format rules a candidate matches. -/
def ruleCount (c : PyStr) : Nat :=
  (if spec_a_share c then 1 else 0) + (if spec_hk c then 1 else 0)
    + (if spec_us c then 1 else 0)

/-- The code-level US acceptance rule — the third branch of
`_is_valid_code`: the `upper()` image of the candidate matches
`^[A-Z]\x7b1,5\x7d$`.  This is wider than the spec's "1 to 5 ASCII letters"
(`spec_us`): it also accepts the characters whose Unicode uppercase image
is a sequence of ASCII letters. -/
def code_us (c : PyStr) : Bool :=
  1 ≤ (pyUpper c).length && (pyUpper c).length ≤ 5
    && (pyUpper c).all Char.isUpper

/-- How many of the code-level rules (A-share, Hong Kong, code-level US) a
candidate matches. -/
def codeRuleCount (c : PyStr) : Nat :=
  (if spec_a_share c then 1 else 0) + (if spec_hk c then 1 else 0)
    + (if code_us c then 1 else 0)

/-! Character-class bridge lemmas. -/

theorem char_isDigit_iff {c : Char} : c.isDigit = true ↔ 48 ≤ c.toNat ∧ c.toNat ≤ 57 := by
  simp only [Char.isDigit, ge_iff_le, Bool.and_eq_true, decide_eq_true_eq, UInt32.le_def]
  exact Iff.rfl

theorem char_isUpper_iff {c : Char} : c.isUpper = true ↔ 65 ≤ c.toNat ∧ c.toNat ≤ 90 := by
  simp only [Char.isUpper, ge_iff_le, Bool.and_eq_true, decide_eq_true_eq, UInt32.le_def]
  exact Iff.rfl

theorem char_isLower_iff {c : Char} : c.isLower = true ↔ 97 ≤ c.toNat ∧ c.toNat ≤ 122 := by
  simp only [Char.isLower, ge_iff_le, Bool.and_eq_true, decide_eq_true_eq, UInt32.le_def]
  exact Iff.rfl

/-- The ten code points with an all-ASCII uppercase image, as enumerated
by `pyUpperChar`. -/
def upperSpecials : List Nat :=
  [223, 383, 305, 64256, 64257, 64258, 64259, 64260, 64261, 64262]

/-- A character that is an ASCII letter or digit is not Python whitespace. -/
theorem not_pyWs_of_alphanum {x : Char} (h : x.isAlphanum = true) : isPyWs x = false := by
  have hx : (48 ≤ x.toNat ∧ x.toNat ≤ 57) ∨ (65 ≤ x.toNat ∧ x.toNat ≤ 90)
      ∨ (97 ≤ x.toNat ∧ x.toNat ≤ 122) := by
    simp only [Char.isAlphanum, Char.isAlpha, Bool.or_eq_true] at h
    rcases h with (h | h) | h
    · exact .inr (.inl (char_isUpper_iff.mp h))
    · exact .inr (.inr (char_isLower_iff.mp h))
    · exact .inl (char_isDigit_iff.mp h)
  rw [isPyWs, decide_eq_false_iff_not]
  intro hcon
  rcases hx with ⟨a1, b1⟩ | ⟨a1, b1⟩ | ⟨a1, b1⟩ <;>
    rcases hcon with ⟨a, b⟩ | ⟨a, b⟩ | a | a | a | ⟨a, b⟩ | a | a | a | a | a <;> omega

/-- Characters outside the ten-entry special table uppercase to their
single `Char.toUpper` image. -/
theorem pyUpperChar_eq_toUpper {x : Char}
    (h : ∀ n ∈ upperSpecials, ¬ x.toNat = n) :
    pyUpperChar x = [Char.toUpper x] := by
  unfold pyUpperChar
  rw [if_neg (fun hh => h 223 (by decide) (by rw [hh]; decide)),
    if_neg (fun hh => h 383 (by decide) (by rw [hh]; decide)),
    if_neg (fun hh => h 305 (by decide) (by rw [hh]; decide)),
    if_neg (fun hh => h 64256 (by decide) (by rw [hh]; decide)),
    if_neg (fun hh => h 64257 (by decide) (by rw [hh]; decide)),
    if_neg (fun hh => h 64258 (by decide) (by rw [hh]; decide)),
    if_neg (fun hh => h 64259 (by decide) (by rw [hh]; decide)),
    if_neg (fun hh => h 64260 (by decide) (by rw [hh]; decide)),
    if_neg (fun hh => h 64261 (by decide) (by rw [hh]; decide)),
    if_neg (fun hh => h 64262 (by decide) (by rw [hh]; decide))]

/-- Characters that are not ASCII lowercase are fixed by `Char.toUpper`. -/
theorem toUpper_eq_self_of_not_lower {x : Char}
    (h : ¬ (x.toNat ≥ 97 ∧ x.toNat ≤ 122)) : Char.toUpper x = x := by
  show (if x.toNat ≥ 97 ∧ x.toNat ≤ 122 then Char.ofNat (x.toNat - 32) else x) = x
  rw [if_neg h]

/-- Digit strings are fixed by `upper()`. -/
theorem pyUpper_eq_self_of_digits {c : PyStr} (h : c.all Char.isDigit = true) :
    pyUpper c = c := by
  induction c with
  | nil => rfl
  | cons x xs ih =>
    rw [List.all_cons, Bool.and_eq_true] at h
    have hd := char_isDigit_iff.mp h.1
    have hx : pyUpperChar x = [x] := by
      rw [pyUpperChar_eq_toUpper (by intro n hn; fin_cases hn <;> omega),
        toUpper_eq_self_of_not_lower (by omega)]
    show pyUpperChar x ++ pyUpper xs = x :: xs
    rw [hx, ih h.2]
    rfl

/-- The uppercase image of a Python whitespace character is itself, which
is not in `A`-`Z`. -/
theorem not_code_upper_of_pyWs {x : Char} (h : isPyWs x = true) :
    (pyUpperChar x).all Char.isUpper = false := by
  rw [isPyWs, decide_eq_true_eq] at h
  have hx : pyUpperChar x = [x] := by
    rw [pyUpperChar_eq_toUpper ?h10, toUpper_eq_self_of_not_lower ?hlow]
    case h10 =>
      intro n hn he
      fin_cases hn <;>
        rcases h with ⟨a, b⟩ | ⟨a, b⟩ | a | a | a | ⟨a, b⟩ | a | a | a | a | a <;> omega
    case hlow =>
      rintro ⟨a1, b1⟩
      rcases h with ⟨a, b⟩ | ⟨a, b⟩ | a | a | a | ⟨a, b⟩ | a | a | a | a | a <;> omega
  rw [hx]
  have hxu : x.isUpper = false := by
    cases hu : x.isUpper
    · rfl
    · exfalso
      rcases char_isUpper_iff.mp hu with ⟨a1, b1⟩
      rcases h with ⟨a, b⟩ | ⟨a, b⟩ | a | a | a | ⟨a, b⟩ | a | a | a | a | a <;> omega
  simp [hxu]

/-! Strip lemmas. -/

theorem pyStrip_eq_self {c : PyStr} (h : ∀ x ∈ c, isPyWs x = false) : pyStrip c = c := by
  unfold pyStrip
  rw [List.dropWhile_eq_self_iff.mpr, List.rdropWhile_eq_self_iff.mpr]
  · intro hl
    simp [h _ (List.getLast_mem hl)]
  · intro hl
    simpa using h _ (List.get_mem c 0 hl)

theorem dropWhile_eq_self_of_leading {p : Char → Bool} {l l' : PyStr}
    (h : l.dropWhile p = l) (hp : l' <+: l) : l'.dropWhile p = l' := by
  rw [List.dropWhile_eq_self_iff] at h ⊢
  intro hl
  obtain ⟨t, rfl⟩ := hp
  have h0 : 0 < (l' ++ t).length := by
    rw [List.length_append]
    omega
  have hg : (l' ++ t).get ⟨0, h0⟩ = l'.get ⟨0, hl⟩ := by
    simp [List.getElem_append_left, hl]
  have := h h0
  rwa [hg] at this

theorem pyStrip_idem (s : PyStr) : pyStrip (pyStrip s) = pyStrip s := by
  unfold pyStrip
  rw [dropWhile_eq_self_of_leading (List.dropWhile_idempotent isPyWs s)
    ( List.rdropWhile_prefix isPyWs (s.dropWhile isPyWs)),
    List.rdropWhile_idempotent]

/-! Relating the validator's branches to the spec's §4.4 rules. -/

theorem isPrefixOf_eq_take3 (p c : PyStr) (hp : p.length = 3) :
    p.isPrefixOf c = (c.take 3 == p) := by
  rw [Bool.eq_iff_iff]
  rw [ List.isPrefixOf_iff_prefix, List.prefix_iff_eq_take, beq_iff_eq, hp, eq_comm]

theorem any_isPrefixOf_eq_contains (c : PyStr) :
    valid_prefixes.any (fun p => p.isPrefixOf c) = valid_prefixes.contains (c.take 3) := by
  have h3 : ∀ p ∈ valid_prefixes, p.length = 3 := by decide
  have main : ∀ L : List PyStr, (∀ p ∈ L, p.length = 3) →
      L.any (fun p => p.isPrefixOf c) = L.contains (c.take 3) := by
    intro L hL
    induction L with
    | nil => rfl
    | cons p L ih =>
      have hp := hL p (List.mem_cons_self p L)
      rw [List.any_cons, List.contains_cons, isPrefixOf_eq_take3 p c hp,
        ih (fun q hq => hL q (List.mem_cons_of_mem p hq))]
  exact main valid_prefixes h3

theorem char_not_digit_and_alpha {x : Char} (hd : x.isDigit = true)
    (ha : x.isAlpha = true) : False := by
  rcases char_isDigit_iff.mp hd with ⟨h1, h2⟩
  have ha2 : x.isUpper = true ∨ x.isLower = true := by
    simpa [Char.isAlpha] using ha
  rcases ha2 with h | h
  · rcases char_isUpper_iff.mp h with ⟨h3, h4⟩
    omega
  · rcases char_isLower_iff.mp h with ⟨h3, h4⟩
    omega

theorem all_digit_alpha_nil {c : PyStr} (hd : c.all Char.isDigit = true)
    (ha : c.all Char.isAlpha = true) : c = [] := by
  cases c with
  | nil => rfl
  | cons x xs =>
    exfalso
    rw [List.all_cons, Bool.and_eq_true] at hd ha
    exact char_not_digit_and_alpha hd.1 ha.1

theorem spec_a_share_length {c : PyStr} (h : spec_a_share c = true) : c.length = 6 := by
  simp only [spec_a_share, Bool.and_eq_true, beq_iff_eq] at h
  exact h.1.1

theorem spec_a_share_digits {c : PyStr} (h : spec_a_share c = true) :
    c.all Char.isDigit = true := by
  simp only [spec_a_share, Bool.and_eq_true, beq_iff_eq] at h
  exact h.1.2

theorem spec_hk_length {c : PyStr} (h : spec_hk c = true) : c.length = 5 := by
  simp only [spec_hk, Bool.and_eq_true, beq_iff_eq] at h
  exact h.1

theorem spec_hk_digits {c : PyStr} (h : spec_hk c = true) : c.all Char.isDigit = true := by
  simp only [spec_hk, Bool.and_eq_true, beq_iff_eq] at h
  exact h.2

/-- Digit strings match neither form of the US rule: their `upper()`
image is themselves, and digits are not in `A`-`Z`. -/
theorem not_digits_and_code_us {c : PyStr} (hd : c.all Char.isDigit = true)
    (hu : code_us c = true) : False := by
  simp only [code_us, Bool.and_eq_true, decide_eq_true_eq] at hu
  rw [pyUpper_eq_self_of_digits hd] at hu
  obtain ⟨⟨h1, h2⟩, h3⟩ := hu
  cases c with
  | nil => simp at h1
  | cons x xs =>
    rw [List.all_cons, Bool.and_eq_true] at hd h3
    exact char_not_digit_and_alpha hd.1 (by simp [Char.isAlpha, h3.1])

/-- A candidate matching the code-level US rule contains no whitespace:
each character's `upper()` image sits inside the all-`A`-`Z` image of the
whole string, and whitespace characters have non-`A`-`Z` images. -/
theorem code_us_no_ws {c : PyStr} (hu : code_us c = true) :
    ∀ x ∈ c, isPyWs x = false := by
  intro x hx
  simp only [code_us, Bool.and_eq_true, decide_eq_true_eq] at hu
  obtain ⟨⟨h1, h2⟩, h3⟩ := hu
  cases hw : isPyWs x
  · rfl
  · exfalso
    have himg : (pyUpperChar x).all Char.isUpper = true := by
      rw [List.all_eq_true]
      intro y hy
      refine List.all_eq_true.mp h3 y ?_
      simp only [pyUpper, List.mem_flatten]
      exact ⟨pyUpperChar x, List.mem_map_of_mem _ hx, hy⟩
    rw [not_code_upper_of_pyWs hw] at himg
    exact Bool.false_ne_true himg

theorem codeRuleCount_eq_one_iff (c : PyStr) :
    codeRuleCount c = 1
      ↔ spec_a_share c = true ∨ spec_hk c = true ∨ code_us c = true := by
  unfold codeRuleCount
  by_cases hA : spec_a_share c = true
  · have h6 := spec_a_share_length hA
    have hH : spec_hk c = false := by
      cases h : spec_hk c
      · rfl
      · have := spec_hk_length h
        omega
    have hU : code_us c = false := by
      cases h : code_us c
      · rfl
      · exact absurd (not_digits_and_code_us (spec_a_share_digits hA) h) not_false
    simp [hA, hH, hU]
  · by_cases hH : spec_hk c = true
    · have hU : code_us c = false := by
        cases h : code_us c
        · rfl
        · exact absurd (not_digits_and_code_us (spec_hk_digits hH) h) not_false
      simp [hA, hH, hU]
    · by_cases hU : code_us c = true <;> simp [hA, hH, hU]

theorem is_valid_code_iff_code_rules (c : PyStr) :
    is_valid_code c = true
      ↔ spec_a_share c = true ∨ spec_hk c = true ∨ code_us c = true := by
  unfold is_valid_code
  simp only [any_isPrefixOf_eq_contains]
  by_cases h6 : (c.length == 6 && c.all Char.isDigit) = true
  · rw [if_pos h6]
    rw [Bool.and_eq_true, beq_iff_eq] at h6
    constructor
    · intro hct
      refine .inl ?_
      have hmem : List.take 3 c ∈ valid_prefixes := by simpa using hct
      simp [spec_a_share, h6.1, h6.2, hmem]
    · rintro (hA | hH | hU)
      · simp only [spec_a_share, Bool.and_eq_true] at hA
        exact hA.2
      · have := spec_hk_length hH
        omega
      · exact absurd (not_digits_and_code_us h6.2 hU) not_false
  · rw [if_neg h6]
    rw [Bool.and_eq_true, beq_iff_eq] at h6
    by_cases h5 : (c.length == 5 && c.all Char.isDigit) = true
    · rw [if_pos h5]
      rw [Bool.and_eq_true, beq_iff_eq] at h5
      simp only [true_iff]
      exact .inr (.inl (by simp [spec_hk, h5.1, h5.2]))
    · rw [if_neg h5]
      rw [Bool.and_eq_true, beq_iff_eq] at h5
      by_cases hus : (1 ≤ (pyUpper c).length && (pyUpper c).length ≤ 5
          && (pyUpper c).all Char.isUpper) = true
      · rw [if_pos hus]
        simp only [true_iff]
        exact .inr (.inr hus)
      · rw [if_neg hus]
        simp only [Bool.false_eq_true, false_iff]
        rintro (hA | hH | hU)
        · exact h6 ⟨spec_a_share_length hA, spec_a_share_digits hA⟩
        · exact h5 ⟨spec_hk_length hH, spec_hk_digits hH⟩
        · exact hus hU

theorem pyStrip_eq_self_of_code_rule {c : PyStr}
    (h : spec_a_share c = true ∨ spec_hk c = true ∨ code_us c = true) :
    pyStrip c = c := by
  apply pyStrip_eq_self
  rcases h with hA | hH | hU
  · intro x hx
    exact not_pyWs_of_alphanum
      (by simp [Char.isAlphanum, (List.all_eq_true.mp (spec_a_share_digits hA)) x hx])
  · intro x hx
    exact not_pyWs_of_alphanum
      (by simp [Char.isAlphanum, (List.all_eq_true.mp (spec_hk_digits hH)) x hx])
  · exact code_us_no_ws hU

/-- Claim C1 counterexample: Python's `str.upper` maps `'ß'` to `"SS"`,
which matches `^[A-Z]\x7b1,5\x7d$`, so the validator accepts it:
`validate(['ß']) == ['ß']` in the program, although `'ß'` matches NONE of the
three §4.4 market-format rules (it is not an ASCII letter, digit string of
length 5 or 6, or anything else the spec's rules admit). -/
theorem validate_singleton_cex :
    validate_codes ["ß".data] = ["ß".data] ∧ ruleCount ("ß".data) = 0 := by
  refine ⟨by decide, by decide⟩

/-- Claim C1 (amended): for every candidate string `c`, `validate([c])`
returns `[c]` iff `c` matches exactly one of: the A-share rule, the
Hong-Kong rule, or the code-level US rule — the Python-uppercased form of
`c` is 1 to 5 characters of `A`-`Z`.  The code-level US rule is wider
than the spec's "1 to 5 ASCII letters": it also accepts the characters
whose Unicode uppercase image is a sequence of ASCII letters (`ß`, `ſ`,
`ı` and the Latin ligatures `ﬀ ﬁ ﬂ ﬃ ﬄ ﬅ ﬆ`). -/
theorem validate_singleton_accepts_iff_upper (c : PyStr) :
    validate_codes [c] = [c] ↔ codeRuleCount c = 1 := by
  have hred : validate_codes [c]
      = if is_valid_code (pyStrip c) then [pyStrip c] else [] := by
    simp [validate_codes, validateLoop]
  rw [hred, codeRuleCount_eq_one_iff]
  constructor
  · intro h
    by_cases hv : is_valid_code (pyStrip c) = true
    · rw [if_pos hv] at h
      have hstrip : pyStrip c = c := by
        simpa using h
      rw [hstrip] at hv
      exact (is_valid_code_iff_code_rules c).mp hv
    · rw [if_neg hv] at h
      exact absurd h.symm (List.cons_ne_nil c [])
  · intro h
    have hstrip : pyStrip c = c := pyStrip_eq_self_of_code_rule h
    rw [hstrip, if_pos ((is_valid_code_iff_code_rules c).mpr h)]

theorem contains_false_iff {l : List PyStr} {x : PyStr} :
    l.contains x = false ↔ ¬ x ∈ l := by
  rw [← Bool.not_eq_true]
  exact not_congr List.elem_iff

theorem validateLoop_cons (seen : List PyStr) (c : PyStr) (rest : List PyStr) :
    validateLoop seen (c :: rest)
    = if seen.contains (pyStrip c) then validateLoop seen rest
      else if is_valid_code (pyStrip c) then
        pyStrip c :: validateLoop (pyStrip c :: seen) rest
      else validateLoop seen rest := rfl

/-- Invariant of the `_validate_codes` loop: the produced list has no
duplicates, all its members are stripped valid codes not in `seen`, and it
is a subsequence of the stripped input. -/
theorem validateLoop_spec (l : List PyStr) : ∀ seen : List PyStr,
    (validateLoop seen l).Nodup
    ∧ (∀ c ∈ validateLoop seen l,
        is_valid_code c = true ∧ pyStrip c = c ∧ ¬ c ∈ seen)
    ∧ (validateLoop seen l).Sublist (l.map pyStrip) := by
  induction l with
  | nil =>
    intro seen
    simp [validateLoop]
  | cons c rest ih =>
    intro seen
    rw [validateLoop_cons]
    by_cases hseen : seen.contains (pyStrip c) = true
    · rw [if_pos hseen]
      obtain ⟨hn, hm, hs⟩ := ih seen
      exact ⟨hn, hm, hs.trans (List.sublist_cons_self _ _)⟩
    · rw [if_neg hseen]
      by_cases hv : is_valid_code (pyStrip c) = true
      · rw [if_pos hv]
        obtain ⟨hn, hm, hs⟩ := ih (pyStrip c :: seen)
        refine ⟨?_, ?_, ?_⟩
        · refine List.nodup_cons.mpr ⟨?_, hn⟩
          intro hmem
          exact (hm _ hmem).2.2 (List.mem_cons_self _ _)
        · intro d hd
          rcases List.mem_cons.mp hd with rfl | hd'
          · exact ⟨hv, pyStrip_idem c,
              contains_false_iff.mp (Bool.not_eq_true _ ▸ eq_false_of_ne_true hseen)⟩
          · obtain ⟨h1, h2, h3⟩ := hm d hd'
            exact ⟨h1, h2, fun hc => h3 (List.mem_cons_of_mem _ hc)⟩
        · exact List.Sublist.cons₂ _ hs
      · rw [if_neg hv]
        obtain ⟨hn, hm, hs⟩ := ih seen
        exact ⟨hn, hm, hs.trans (List.sublist_cons_self _ _)⟩

/-- Claim C5 counterexample: on the input list `["AAPL", "aapl"]` the
validator keeps both entries, which are equal after trimming and
case-normalization — the output does contain a duplicate under
case-normalization. -/
theorem validate_case_dup_cex :
    validate_codes ["AAPL".data, "aapl".data] = ["AAPL".data, "aapl".data]
    ∧ ¬ ((validate_codes ["AAPL".data, "aapl".data]).map
        (fun c => (pyStrip c).map Char.toUpper)).Nodup := by
  refine ⟨by decide, by decide⟩

/-- Claim C5 (amended): the validator output contains no duplicate codes
under exact string equality of the trimmed candidates — each distinct
trimmed value appears at most once, in first-occurrence order (the output
is a subsequence of the trimmed input) — and every output element passes
one of the code's acceptance rules: the A-share rule, the Hong-Kong rule,
or the code-level US rule (Python-uppercased form is 1 to 5 characters of
`A`-`Z`, wider than the spec's "1 to 5 ASCII letters").  Deduplication is
NOT case-normalized: see the counterexample. -/
theorem validate_codes_invariant (x : List PyStr) :
    (validate_codes x).Nodup
    ∧ (∀ c ∈ validate_codes x,
        spec_a_share c = true ∨ spec_hk c = true ∨ code_us c = true)
    ∧ (validate_codes x).Sublist (x.map pyStrip) := by
  obtain ⟨hn, hm, hs⟩ := validateLoop_spec x []
  exact ⟨hn, fun c hc => (is_valid_code_iff_code_rules c).mp (hm c hc).1, hs⟩

/-- A list of stripped, valid, pairwise-distinct codes that avoids `seen`
passes through the `_validate_codes` loop unchanged. -/
theorem validateLoop_fixed (l : List PyStr) : ∀ seen : List PyStr,
    (∀ c ∈ l, is_valid_code c = true ∧ pyStrip c = c) → l.Nodup →
    (∀ c ∈ l, ¬ c ∈ seen) → validateLoop seen l = l := by
  induction l with
  | nil => intro seen _ _ _; rfl
  | cons c rest ih =>
    intro seen hall hnd hsn
    obtain ⟨hv, hstrip⟩ := hall c (List.mem_cons_self _ _)
    have hseen : seen.contains c = false :=
      contains_false_iff.mpr (hsn c (List.mem_cons_self _ _))
    rw [validateLoop_cons, hstrip,
      if_neg (by rw [hseen]; exact Bool.false_ne_true), if_pos hv]
    refine congrArg (c :: ·) (ih (c :: seen) ?_ (List.nodup_cons.mp hnd).2 ?_)
    · exact fun d hd => hall d (List.mem_cons_of_mem _ hd)
    · intro d hd
      rw [List.mem_cons, not_or]
      constructor
      · intro hdc
        exact (List.nodup_cons.mp hnd).1 (hdc ▸ hd)
      · exact hsn d (List.mem_cons_of_mem _ hd)

/-- Claim C6: the validator is idempotent — `validate(validate(x)) =
validate(x)` for every input list `x`. -/
theorem validate_codes_idempotent (x : List PyStr) :
    validate_codes (validate_codes x) = validate_codes x := by
  obtain ⟨hn, hm, _⟩ := validateLoop_spec x []
  exact validateLoop_fixed _ []
    (fun c hc => ⟨(hm c hc).1, (hm c hc).2.1⟩) hn (by simp)

/-! The pattern-based fallback `_extract_codes_by_regex`. -/

/-- Regex word characters: the ASCII interpretation of the `\w` class used
by the `\b` boundaries of `_extract_codes_by_regex`. -/
def isWordChar (c : Char) : Bool := c.isAlphanum || c == '_'

/-- True when the character at index `i` is absent or a non-word character
(`\b` holds at the string boundaries). -/
def nonWordAt (t : PyStr) (i : Nat) : Bool :=
  match t[i]? with
  | some c => ! isWordChar c
  | none => true

/-- The pattern `\b([0-9]{k})\b` matches at index `i`: `k` digits starting
at `i` with non-word context on both sides.  Since digits are word
characters, two such matches can never overlap, so the non-overlapping
left-to-right matches of `re.finditer` are exactly the indices satisfying
this predicate, in increasing order. -/
def matchAt (t : PyStr) (k i : Nat) : Bool :=
  decide (i + k ≤ t.length) && ((t.drop i).take k).all Char.isDigit
    && (i == 0 || nonWordAt t (i - 1)) && nonWordAt t (i + k)

/-- All `\b`-delimited `k`-digit runs of `t`, in order of position. -/
def matchList (t : PyStr) (k : Nat) : List PyStr :=
  ((List.range (t.length + 1)).filter (fun i => matchAt t k i)).map
    (fun i => (t.drop i).take k)

/-- The accumulation loop shared by both passes of
`_extract_codes_by_regex`: append a match when it is new and valid. -/
def collectValid (codes seen : List PyStr) : List PyStr → List PyStr × List PyStr
  | [] => (codes, seen)
  | c :: rest =>
    if ! seen.contains c && is_valid_code c then
      collectValid (codes ++ [c]) (c :: seen) rest
    else
      collectValid codes seen rest

theorem collectValid_cons (codes seen : List PyStr) (c : PyStr) (rest : List PyStr) :
    collectValid codes seen (c :: rest)
    = if ! seen.contains c && is_valid_code c then
        collectValid (codes ++ [c]) (c :: seen) rest
      else
        collectValid codes seen rest := rfl

/-- Embeds `StockOCRService._extract_codes_by_regex`: collect the valid 6-digit
matches, then the valid 5-digit matches, with a shared seen-set. -/
def extract_codes_by_regex (t : PyStr) : List PyStr :=
  let p6 := collectValid [] [] (matchList t 6)
  (collectValid p6.1 p6.2 (matchList t 5)).1

/-- Index of the first occurrence of `pat` as a contiguous substring of
`t` — the position of first appearance in the raw text. -/
def firstOccurrence (pat t : PyStr) : Option Nat :=
  (List.range (t.length + 1)).find? (fun i => pat.isPrefixOf (t.drop i))

theorem collectValid_sublist (cand : List PyStr) : ∀ codes seen : List PyStr,
    ∃ l s, collectValid codes seen cand = (codes ++ l, s) ∧ l.Sublist cand := by
  induction cand with
  | nil =>
    intro codes seen
    exact ⟨[], seen, by simp [collectValid], List.nil_sublist _⟩
  | cons c rest ih =>
    intro codes seen
    rw [collectValid_cons]
    by_cases h : (! seen.contains c && is_valid_code c) = true
    · rw [if_pos h]
      obtain ⟨l, s, heq, hsub⟩ := ih (codes ++ [c]) (c :: seen)
      refine ⟨c :: l, s, ?_, List.Sublist.cons₂ _ hsub⟩
      rw [heq]
      simp
    · rw [if_neg h]
      obtain ⟨l, s, heq, hsub⟩ := ih codes seen
      exact ⟨l, s, heq, hsub.trans (List.sublist_cons_self _ _)⟩

theorem matchList_length (t : PyStr) (k : Nat) : ∀ c ∈ matchList t k, c.length = k := by
  intro c hc
  simp only [matchList, List.mem_map, List.mem_filter, List.mem_range] at hc
  obtain ⟨i, ⟨hi, hm⟩, rfl⟩ := hc
  have hle : i + k ≤ t.length := by
    simp only [matchAt, Bool.and_eq_true, decide_eq_true_eq] at hm
    exact hm.1.1.1
  simp only [List.length_take, List.length_drop]
  omega

/-- Claim C3 counterexample: in the raw text `"00700 600519"` the code
`"00700"` first appears at position 0 and `"600519"` at position 6, yet
the fallback extractor returns `["600519", "00700"]`: the 6-digit pass
precedes the 5-digit pass regardless of text position. -/
theorem extract_order_cex :
    extract_codes_by_regex ("00700 600519".data)
      = ["600519".data, "00700".data]
    ∧ firstOccurrence ("00700".data) ("00700 600519".data) = some 0
    ∧ firstOccurrence ("600519".data) ("00700 600519".data) = some 6 := by
  refine ⟨by decide, by decide, by decide⟩

/-- Claim C3 (amended): the fallback extractor's output is the validated
6-digit matches followed by the validated 5-digit matches; WITHIN each
digit-length class the output follows the position of first appearance in
the raw text (each part is a subsequence of the position-ordered match
list of its pass), but every 6-digit code precedes every 5-digit code
regardless of text position. -/
theorem extract_codes_pass_order (t : PyStr) :
    ∃ l1 l2, extract_codes_by_regex t = l1 ++ l2
      ∧ l1.Sublist (matchList t 6) ∧ l2.Sublist (matchList t 5)
      ∧ (∀ c ∈ l1, c.length = 6) ∧ (∀ c ∈ l2, c.length = 5) := by
  obtain ⟨l1, s1, h1, hs1⟩ := collectValid_sublist (matchList t 6) [] []
  obtain ⟨l2, s2, h2, hs2⟩ := collectValid_sublist (matchList t 5) l1 s1
  refine ⟨l1, l2, ?_, hs1, hs2,
    fun c hc => matchList_length t 6 c (hs1.subset hc),
    fun c hc => matchList_length t 5 c (hs2.subset hc)⟩
  unfold extract_codes_by_regex
  rw [show collectValid [] [] (matchList t 6) = (l1, s1) from by simpa using h1]
  simpa using congrArg Prod.fst h2

/-! Model of the JSON decoding performed by `_parse_response`:
`json.loads` applied to the substring matched by the pattern
`\x7b[^\x7b\x7d]*"codes"[^\x7b\x7d]*\x7d` (braces written here as their
code points). -/

/-- JSON values as decoded by Python's `json.loads`.  Integer literals
decode to `int`; literals with a fraction or exponent decode to floats,
kept as their literal text (`floatLit`) — only their truthiness (zero or
not) and the fact that a finite float's `str()` rendering always contains
a dot or exponent (hence is never a valid stock code) are observable in
this program.  `Infinity`, `-Infinity` and `NaN` decode to the special
floats `inf`/`nan`. -/
inductive JVal where
  | str (s : PyStr)
  | int (n : Int)
  | floatLit (lit : PyStr)
  | inf (neg : Bool)
  | nan
  | bool (b : Bool)
  | null
  | arr (xs : List JVal)
  | obj (kvs : List (PyStr × JVal))

/-- Drop leading JSON whitespace. -/
def jWs (s : PyStr) : PyStr :=
  s.dropWhile (fun c => c == ' ' || c == '\t' || c == '\n' || c == '\r')

def hexVal (c : Char) : Option Nat :=
  if c.isDigit then some (c.toNat - 48)
  else if 'a' ≤ c ∧ c ≤ 'f' then some (c.toNat - 87)
  else if 'A' ≤ c ∧ c ≤ 'F' then some (c.toNat - 55)
  else none

/-- Decode a JSON string body (after the opening quote), returning the
decoded characters and the input past the closing quote.  As in Python's
strict decoder, raw control characters are rejected; `\uXXXX` escapes
decode to the corresponding scalar, with surrogate code units mapped to
U+FFFD (a placeholder: neither a lone surrogate nor a decoded surrogate
pair can ever contribute a digit or ASCII letter, so this cannot change
which candidates validate). -/
def parseJStringBody : PyStr → Option (PyStr × PyStr)
  | [] => none
  | '"' :: rest => some ([], rest)
  | '\\' :: rest =>
    match rest with
    | '"' :: r => (parseJStringBody r).map (fun p => ('"' :: p.1, p.2))
    | '\\' :: r => (parseJStringBody r).map (fun p => ('\\' :: p.1, p.2))
    | '/' :: r => (parseJStringBody r).map (fun p => ('/' :: p.1, p.2))
    | 'b' :: r => (parseJStringBody r).map (fun p => ('\x08' :: p.1, p.2))
    | 'f' :: r => (parseJStringBody r).map (fun p => ('\x0c' :: p.1, p.2))
    | 'n' :: r => (parseJStringBody r).map (fun p => ('\n' :: p.1, p.2))
    | 'r' :: r => (parseJStringBody r).map (fun p => ('\x0d' :: p.1, p.2))
    | 't' :: r => (parseJStringBody r).map (fun p => ('\t' :: p.1, p.2))
    | 'u' :: h1 :: h2 :: h3 :: h4 :: r =>
      match hexVal h1, hexVal h2, hexVal h3, hexVal h4 with
      | some a, some b, some c, some d =>
        let n := ((a * 16 + b) * 16 + c) * 16 + d
        let ch := if n < 0xd800 ∨ 0xdfff < n then Char.ofNat n else '�'
        (parseJStringBody r).map (fun p => (ch :: p.1, p.2))
      | _, _, _, _ => none
    | _ => none
  | c :: rest =>
    if c.toNat < 32 then none
    else (parseJStringBody rest).map (fun p => (c :: p.1, p.2))

def digitsToNat (ds : List Char) : Nat :=
  ds.foldl (fun acc c => acc * 10 + (c.toNat - 48)) 0

/-- A JSON number, following Python's `NUMBER_RE`:
`-? (0 | [1-9][0-9]*) (\.[0-9]+)? ([eE][-+]?[0-9]+)?`.  A literal without
fraction or exponent is an `int`; otherwise it is a float, kept as its
literal text. -/
def parseJNumber (s : PyStr) : Option (JVal × PyStr) :=
  let negPair := match s with
    | '-' :: r => (true, r)
    | _ => (false, s)
  let neg := negPair.1
  let s1 := negPair.2
  match s1 with
  | [] => none
  | c :: _ =>
    if ¬ c.isDigit then none
    else
      let intPart := if c = '0' then ['0'] else s1.takeWhile Char.isDigit
      let r1 := s1.drop intPart.length
      let fracPair := match r1 with
        | '.' :: r =>
          let ds := r.takeWhile Char.isDigit
          if ds.isEmpty then (([] : PyStr), r1) else ('.' :: ds, r.drop ds.length)
        | _ => (([] : PyStr), r1)
      let fracPart := fracPair.1
      let r2 := fracPair.2
      let expPair := match r2 with
        | e :: r3 =>
          if e = 'e' ∨ e = 'E' then
            let sgnPair := match r3 with
              | '+' :: q => (['+'], q)
              | '-' :: q => (['-'], q)
              | _ => (([] : PyStr), r3)
            let ds := sgnPair.2.takeWhile Char.isDigit
            if ds.isEmpty then (([] : PyStr), r2)
            else (e :: (sgnPair.1 ++ ds), sgnPair.2.drop ds.length)
          else (([] : PyStr), r2)
        | [] => (([] : PyStr), r2)
      if fracPair.1.isEmpty ∧ expPair.1.isEmpty then
        let v : Int := Int.ofNat (digitsToNat intPart)
        some (.int (if neg then -v else v), r1)
      else
        some (.floatLit ((if neg then ['-'] else []) ++ intPart ++ fracPart ++ expPair.1),
          expPair.2)

/-- Failure modes of the JSON decode.  A malformed document raises
`json.JSONDecodeError`, which `_parse_response` catches; exceeding the
interpreter recursion limit on nested containers raises `RecursionError`,
which the `except json.JSONDecodeError` clause does NOT catch. -/
inductive JsonErr where
  | decodeErr
  | recursionErr
  deriving DecidableEq

mutual

/-- One JSON value (recursive descent modelling Python's scanner; callers
skip leading whitespace first).  The first argument is structural fuel,
chosen large enough by `jsonLoads` never to run out on its input; the
second is the remaining container-nesting headroom: CPython's scanner
recurses once per nested array or object and raises `RecursionError` when
the interpreter recursion limit is exceeded, modelled here by entering a
container at headroom zero. -/
def parseJValue : Nat → Nat → PyStr → Except JsonErr (JVal × PyStr)
  | 0, _, _ => .error .decodeErr
  | Nat.succ fuel, depth, s =>
    match s with
    | [] => .error .decodeErr
    | c :: rest =>
      if c = '"' then
        match parseJStringBody rest with
        | some p => .ok (.str p.1, p.2)
        | none => .error .decodeErr
      else if c = '\x7b' then
        if depth = 0 then .error .recursionErr
        else parseJObjBody fuel (depth - 1) (jWs rest)
      else if c = '[' then
        if depth = 0 then .error .recursionErr
        else parseJArrBody fuel (depth - 1) (jWs rest)
      else if ("true".data).isPrefixOf s then .ok (.bool true, s.drop 4)
      else if ("false".data).isPrefixOf s then .ok (.bool false, s.drop 5)
      else if ("null".data).isPrefixOf s then .ok (.null, s.drop 4)
      else if ("NaN".data).isPrefixOf s then .ok (.nan, s.drop 3)
      else if ("Infinity".data).isPrefixOf s then .ok (.inf false, s.drop 8)
      else if ("-Infinity".data).isPrefixOf s then .ok (.inf true, s.drop 9)
      else
        match parseJNumber s with
        | some p => .ok p
        | none => .error .decodeErr
termination_by structural fuel _ _ => fuel

/-- Object members after the opening brace and whitespace skip. -/
def parseJObjBody : Nat → Nat → PyStr → Except JsonErr (JVal × PyStr)
  | 0, _, _ => .error .decodeErr
  | Nat.succ fuel, depth, s =>
    match s with
    | '\x7d' :: rest => .ok (.obj [], rest)
    | _ => parseJMembers fuel depth s []
termination_by structural fuel _ _ => fuel

/-- A nonempty member list: string key, colon, value, then a comma and
more members or the closing brace.  Duplicate keys are kept in order (the
lookup below takes the last occurrence, as Python dict construction
overwrites earlier keys). -/
def parseJMembers : Nat → Nat → PyStr → List (PyStr × JVal) → Except JsonErr (JVal × PyStr)
  | 0, _, _, _ => .error .decodeErr
  | Nat.succ fuel, depth, s, acc =>
    match s with
    | '"' :: r =>
      match parseJStringBody r with
      | none => .error .decodeErr
      | some (k, r1) =>
        match jWs r1 with
        | ':' :: r2 =>
          match parseJValue fuel depth (jWs r2) with
          | .error e => .error e
          | .ok (v, r3) =>
            match jWs r3 with
            | ',' :: r4 => parseJMembers fuel depth (jWs r4) (acc ++ [(k, v)])
            | '\x7d' :: r4 => .ok (.obj (acc ++ [(k, v)]), r4)
            | _ => .error .decodeErr
        | _ => .error .decodeErr
    | _ => .error .decodeErr
termination_by structural fuel _ _ _ => fuel

/-- Array elements after the opening bracket and whitespace skip. -/
def parseJArrBody : Nat → Nat → PyStr → Except JsonErr (JVal × PyStr)
  | 0, _, _ => .error .decodeErr
  | Nat.succ fuel, depth, s =>
    match s with
    | ']' :: rest => .ok (.arr [], rest)
    | _ => parseJElems fuel depth s []
termination_by structural fuel _ _ => fuel

def parseJElems : Nat → Nat → PyStr → List JVal → Except JsonErr (JVal × PyStr)
  | 0, _, _, _ => .error .decodeErr
  | Nat.succ fuel, depth, s, acc =>
    match parseJValue fuel depth s with
    | .error e => .error e
    | .ok (v, r) =>
      match jWs r with
      | ',' :: r2 => parseJElems fuel depth (jWs r2) (acc ++ [v])
      | ']' :: r2 => .ok (.arr (acc ++ [v]), r2)
      | _ => .error .decodeErr
termination_by structural fuel _ _ _ => fuel

end

/-- Embeds `json.loads`: parse one value and require only trailing whitespace.
`limit` is the container-nesting headroom the interpreter recursion limit
leaves to the scanner — an environment parameter of the model (CPython's
default recursion limit is 1000, but the headroom at the call site is not
a fixed constant of the program).  The fuel bound exceeds the recursion
depth any input of this length can force (each three nested calls consume
at least one character), so fuel exhaustion is unreachable. -/
def jsonLoads (limit : Nat) (s : PyStr) : Except JsonErr JVal :=
  match parseJValue (3 * s.length + 3) limit (jWs s) with
  | .ok (v, rest) => if jWs rest = [] then .ok v else .error .decodeErr
  | .error e => .error e

def codesKey : PyStr := "codes".data

/-- Python `result.get('codes', [])` on the decoded object: dict
construction overwrites duplicate keys, so lookup returns the last pair
with the key; the default is the empty list. -/
def dictGetCodes (kvs : List (PyStr × JVal)) : JVal :=
  match (kvs.filter (fun p => p.1 == codesKey)).getLast? with
  | some p => p.2
  | none => .arr []

/-- Zero test for a decoded finite float literal.  Python stores the
literal as an IEEE-754 double, which is `0.0` (falsy) exactly when the
literal's value has magnitude at most `2 ^ (-1075)` — the midpoint below
the smallest subnormal; the tie rounds to the even `0.0` — so underflowing
literals such as `1e-400` are zero.  Decided by exact integer arithmetic
on the literal, written as mantissa `m` times `10 ^ e`. -/
def floatLitIsZero (lit : PyStr) : Bool :=
  let body := match lit with
    | '-' :: r => r
    | _ => lit
  let mant := body.takeWhile (fun c => ! (c == 'e' || c == 'E'))
  let expDigits := body.drop (mant.length + 1)
  let expVal : Int := match expDigits with
    | '+' :: ds => Int.ofNat (digitsToNat ds)
    | '-' :: ds => - Int.ofNat (digitsToNat ds)
    | ds => Int.ofNat (digitsToNat ds)
  let fracLen : Nat := match mant.dropWhile (fun c => ! (c == '.')) with
    | _ :: fs => fs.length
    | [] => 0
  let m := digitsToNat (mant.filter Char.isDigit)
  if m == 0 then true
  else
    match expVal - Int.ofNat fracLen with
    | Int.ofNat _ => false
    | Int.negSucc k => decide (m * 2 ^ 1075 ≤ 10 ^ (k + 1))

/-- Python truthiness (`if codes:`) of a decoded value. -/
def truthy : JVal → Bool
  | .str s => ! s.isEmpty
  | .int n => ! (n == 0)
  | .floatLit lit => ! floatLitIsZero lit
  | .inf _ => true
  | .nan => true
  | .bool b => b
  | .null => false
  | .arr xs => ! xs.isEmpty
  | .obj kvs => ! kvs.isEmpty

/-- Keys of a Python dict built from the (possibly duplicated) parsed
pairs: first-insertion order, later duplicates merged. -/
def keysInOrder (seen : List PyStr) : List (PyStr × JVal) → List PyStr
  | [] => []
  | (k, _) :: rest =>
    if seen.contains k then keysInOrder seen rest
    else k :: keysInOrder (k :: seen) rest

mutual

/-- Python `repr()` of a decoded JSON value.  String quoting and float
formatting are approximated (strings are wrapped in plain quotes, finite
floats render as their literal text): every container rendering starts
with a bracket or brace and every finite float rendering contains a dot
or exponent, so no approximated rendering can ever validate as a stock
code, which is all the program observes of them. -/
def pyReprOfJVal : JVal → PyStr
  | .str s => '\x27' :: (s ++ ['\x27'])
  | .int n => (toString n).data
  | .floatLit lit => lit
  | .inf neg => if neg then "-inf".data else "inf".data
  | .nan => "nan".data
  | .bool b => if b then "True".data else "False".data
  | .null => "None".data
  | .arr xs => '[' :: (pyReprList xs ++ [']'])
  | .obj kvs => '\x7b' :: (pyReprPairs kvs ++ ['\x7d'])

def pyReprList : List JVal → PyStr
  | [] => []
  | [v] => pyReprOfJVal v
  | v :: vs => pyReprOfJVal v ++ (", ".data ++ pyReprList vs)

def pyReprPairs : List (PyStr × JVal) → PyStr
  | [] => []
  | [(k, v)] => ('\x27' :: (k ++ ['\x27'])) ++ (": ".data ++ pyReprOfJVal v)
  | (k, v) :: rest =>
    (('\x27' :: (k ++ ['\x27'])) ++ (": ".data ++ pyReprOfJVal v))
      ++ (", ".data ++ pyReprPairs rest)

end

/-- Python `str()` as applied by `str(code)` to each candidate:
identical to `repr()` for every decoded type except strings, which render
as themselves. -/
def pyStrOfJVal : JVal → PyStr
  | .str s => s
  | v => pyReprOfJVal v

/-- Python iteration over the decoded `codes` value (`for code in codes`
inside `_validate_codes`): lists yield their elements, strings their
characters, dicts their keys; any other value raises `TypeError`. -/
def iterElems : JVal → Option (List JVal)
  | .arr xs => some xs
  | .str s => some (s.map (fun c => .str [c]))
  | .obj kvs => some ((keysInOrder [] kvs).map .str)
  | _ => none

/-- The Python type name used in the `TypeError` message
(`'int' object is not iterable`). -/
def jTypeName : JVal → PyStr
  | .str _ => "str".data
  | .int _ => "int".data
  | .floatLit _ => "float".data
  | .inf _ => "float".data
  | .nan => "float".data
  | .bool _ => "bool".data
  | .null => "NoneType".data
  | .arr _ => "list".data
  | .obj _ => "dict".data

def notIterableMsg (v : JVal) : PyStr :=
  '\x27' :: (jTypeName v ++ ("\x27 object is not iterable".data))

/-- Index of the first brace at or after `m`. -/
def firstBraceFrom (t : PyStr) (m : Nat) : Option Nat :=
  (List.range' m (t.length - m)).find? (fun b =>
    match t[b]? with
    | some c => c == '\x7b' || c == '\x7d'
    | none => false)

def codesLit : PyStr := "\"codes\"".data

/-- A match of `re.search` with pattern
`\x7b[^\x7b\x7d]*"codes"[^\x7b\x7d]*\x7d` starting at index `i`: the two
greedy brace-free runs force a match starting at a `\x7b` to end exactly
at the first following brace, which must then be `\x7d`, with the literal
`"codes"` somewhere in between. -/
def tryJsonMatchAt (t : PyStr) (i : Nat) : Option PyStr :=
  match t[i]? with
  | some '\x7b' =>
    match firstBraceFrom t (i + 1) with
    | some b =>
      match t[b]? with
      | some '\x7d' =>
        if (List.range' (i + 1) (b - i)).any
            (fun j => codesLit.isPrefixOf (t.drop j)) then
          some ((t.drop i).take (b + 1 - i))
        else none
      | _ => none
    | none => none
  | _ => none

/-- The leftmost match: `re.search` returns the match with the smallest
starting index. -/
def jsonSearch (t : PyStr) : Option PyStr :=
  (List.range t.length).findSome? (fun i => tryJsonMatchAt t i)

def noValidMsg : PyStr := "未能识别到有效的股票代码".data

/-- The fall-through tail of `_parse_response`: the regex fallback, then
the no-valid-code error. -/
def parse_fallback (s : PyStr) : Except PyStr (List PyStr × PyStr) :=
  if ! (extract_codes_by_regex s).isEmpty then .ok (extract_codes_by_regex s, [])
  else .ok ([], noValidMsg)

/-- Embeds `result.get('codes', [])` applied to the decoded value.  The matched
substring always starts with a brace, so a successful decode is an
object; the non-object arm is unreachable and kept only for totality. -/
def codesOf (v : JVal) : JVal :=
  match v with
  | .obj kvs => dictGetCodes kvs
  | _ => .arr []

/-- Message of the `RecursionError` raised when the scanner exceeds the
recursion limit. -/
def recursionErrMsg : PyStr := "maximum recursion depth exceeded".data

/-- Embeds `StockOCRService._parse_response`, with `.error` modelling an
exception escaping the method; `limit` is the recursion headroom passed
down to the JSON decode.  Only `json.JSONDecodeError` is caught (it falls
through to the regex fallback); the `TypeError` raised by iterating a
truthy non-iterable `codes` value, and the `RecursionError` raised by
decoding deeply nested arrays, both propagate. -/
def parse_response (limit : Nat) (s : PyStr) : Except PyStr (List PyStr × PyStr) :=
  match jsonSearch s with
  | some jstr =>
    match jsonLoads limit jstr with
    | .ok v =>
      if truthy (codesOf v) then
        match iterElems (codesOf v) with
        | some elems => .ok (validate_codes (elems.map pyStrOfJVal), [])
        | none => .error (notIterableMsg (codesOf v))
      else parse_fallback s
    | .error .decodeErr => parse_fallback s
    | .error .recursionErr => .error recursionErrMsg
  | none => parse_fallback s

example : jsonLoads 1000 ("\x7b\"codes\": [\"600519\", \"000001\"], \"count\": 2\x7d".data)
    = .ok (.obj [(codesKey, .arr [.str ("600519".data), .str ("000001".data)]),
        ("count".data, .int 2)]) := rfl
example : parse_response 1000 ("prose \x7b\"codes\": [\"600519\"]\x7d after".data)
    = .ok (["600519".data], []) := rfl
example : parse_response 1000 ("no codes at all".data) = .ok ([], noValidMsg) := rfl
example : parse_response 1000 ("600519 is up 2, 000001 is down".data)
    = .ok (["600519".data, "000001".data], []) := rfl
example : parse_response 2 ("\x7b\"codes\": [[0]]\x7d".data) = .error recursionErrMsg := rfl
example : parse_response 3 ("\x7b\"codes\": [[0]]\x7d".data) = .ok ([], []) := rfl
set_option maxRecDepth 20000 in
example : floatLitIsZero ("1e-400".data) = true := by decide
set_option maxRecDepth 20000 in
example : floatLitIsZero ("5e-324".data) = false := by decide
example : truthy (.floatLit ("0.0".data)) = false := by decide

example : is_valid_code ("600519".data) = true := by decide
example : is_valid_code ("700000".data) = false := by decide
example : is_valid_code ("00700".data) = true := by decide
example : is_valid_code ("AAPL".data) = true := by decide
example : is_valid_code ("aApL".data) = true := by decide
example : is_valid_code ("12345678".data) = false := by decide
example : validate_codes ["  600519 ".data, "600519".data, "x7".data]
    = ["600519".data] := by decide
example : ruleCount ("00700".data) = 1 := by decide

/-! Claim C4: exception safety of `_parse_response`. -/

/-- The exact condition under which `_parse_response` raises: the decoded
`codes` value is truthy yet not iterable (`TypeError`), or the decode of
the matched substring exceeds the recursion headroom (`RecursionError`). -/
def parse_response_raises (limit : Nat) (s : PyStr) : Bool :=
  match jsonSearch s with
  | some jstr =>
    match jsonLoads limit jstr with
    | .ok v => truthy (codesOf v) && ! (iterElems (codesOf v)).isSome
    | .error .decodeErr => false
    | .error .recursionErr => true
  | none => false

/-- Claim C4 counterexample: for the input `'\x7b"codes": 5\x7d'` the
embedded JSON decodes `codes` to the number 5, and `_parse_response`
raises `TypeError` (its `try` only catches `json.JSONDecodeError`) instead
of returning a pair: the claim fails on the code.  (The recursion headroom
1000 reflects CPython's default limit; this input nests one level and is
insensitive to it.) -/
theorem parse_response_raises_cex :
    parse_response 1000 ("\x7b\"codes\": 5\x7d".data)
      = .error ("\x27int\x27 object is not iterable".data) := rfl

theorem parse_fallback_isOk (s : PyStr) : (parse_fallback s).isOk = true := by
  unfold parse_fallback
  split <;> rfl

/-- Claim C4 (amended): `parse(raw_text)` terminates normally and returns
a (list, error-string) pair for every input EXCEPT exactly when (i) the
embedded JSON object decodes its `codes` value to something truthy and
non-iterable (e.g. a nonzero number or `true`) — iterating it raises
`TypeError` — or (ii) decoding the matched substring exceeds the
interpreter recursion limit on nested arrays — `json.loads` raises
`RecursionError`.  Neither is the `json.JSONDecodeError` that its `try`
catches, so both escape to the caller. -/
theorem parse_response_total_characterization (limit : Nat) (s : PyStr) :
    (parse_response limit s).isOk = ! parse_response_raises limit s := by
  unfold parse_response parse_response_raises
  cases hj : jsonSearch s with
  | none =>
    dsimp only
    simp [parse_fallback_isOk s]
  | some jstr =>
    dsimp only
    cases hl : jsonLoads limit jstr with
    | error e =>
      cases e
      · dsimp only
        simp [parse_fallback_isOk s]
      · rfl
    | ok v =>
      dsimp only
      by_cases ht : truthy (codesOf v) = true
      · rw [if_pos ht, ht]
        cases hi : iterElems (codesOf v) with
        | none => rfl
        | some elems => rfl
      · rw [if_neg ht]
        have ht2 : truthy (codesOf v) = false := eq_false_of_ne_true ht
        rw [ht2]
        simp [parse_fallback_isOk s]

/-! The recognize layer (`recognize_from_base64`, `recognize_from_file`)
and the HTTP handler of `api/v1/endpoints/ocr.py`.  The bound provider
and the outcome of the (single) network call are inputs of the model; an
event log records which external actions a run performed. -/

inductive ProviderKind where
  | gemini
  | anthropic
  deriving DecidableEq

/-- State `self._provider` after `_init_clients`. -/
structure OcrState where
  provider : Option ProviderKind
  deriving DecidableEq

/-- Observable external actions, logged so that theorems can state what a
run did NOT do (no provider call, no file read). -/
inductive Event where
  | providerCall (k : ProviderKind)
  | readFile (path : PyStr)
  deriving DecidableEq

/-- Outcome of the Gemini client call, supplied as an oracle: the call
raises, or returns a response whose `text` is the given string (empty for
a falsy or absent text). -/
inductive GeminiOutcome where
  | raises (msg : PyStr)
  | resp (text : PyStr)
  deriving DecidableEq

/-- Outcome of the Anthropic client call: raises, or returns a response
whose content blocks each optionally carry text (`hasattr(block, 'text')`). -/
inductive AnthOutcome where
  | raises (msg : PyStr)
  | resp (blocks : List (Option PyStr))
  deriving DecidableEq

def notConfiguredMsg : PyStr :=
  "OCR 服务未配置，请设置 GEMINI_API_KEY 或 ANTHROPIC_API_KEY".data

def recognizeFailHead : PyStr := "识别失败: ".data

/-- Embeds `is_available`. -/
def is_available (st : OcrState) : Bool := st.provider.isSome

/-- Embeds `get_provider`. -/
def get_provider (st : OcrState) : Option PyStr :=
  match st.provider with
  | some .gemini => some ("gemini".data)
  | some .anthropic => some ("anthropic".data)
  | none => none

/-- Embeds `_recognize_with_gemini` from the client call on (its outcome is the
oracle): a falsy response text gives the empty-response error, otherwise
the text is parsed.  `.error` carries the message of an escaping
exception. -/
def recognize_with_gemini (limit : Nat) (og : GeminiOutcome) :
    Except PyStr (List PyStr × PyStr) :=
  match og with
  | .raises m => .error m
  | .resp t =>
    if t.isEmpty then .ok ([], "Gemini 返回空响应".data)
    else parse_response limit t

/-- Embeds `_recognize_with_anthropic`: empty content, then empty concatenated
text, are reported as errors; otherwise the text is parsed. -/
def recognize_with_anthropic (limit : Nat) (oa : AnthOutcome) :
    Except PyStr (List PyStr × PyStr) :=
  match oa with
  | .raises m => .error m
  | .resp blocks =>
    if blocks.isEmpty then .ok ([], "Anthropic 返回空响应".data)
    else
      if ((blocks.filterMap id).flatten).isEmpty then
        .ok ([], "Anthropic 返回空文本".data)
      else parse_response limit ((blocks.filterMap id).flatten)

/-- The provider dispatch inside the `try` of `recognize_from_base64`.
(The `else` arm returning `未知的 OCR 提供商` is unreachable in this
model: a bound provider is always one of the two kinds.) -/
def recognize_dispatch (limit : Nat) (k : ProviderKind) (og : GeminiOutcome)
    (oa : AnthOutcome) : Except PyStr (List PyStr × PyStr) :=
  match k with
  | .gemini => recognize_with_gemini limit og
  | .anthropic => recognize_with_anthropic limit oa

/-- Embeds `recognize_from_base64`: an unavailable service short-circuits with
the not-configured message and performs no call; otherwise the provider
call runs once and any exception raised by it or by the subsequent
parsing is caught and rendered as `识别失败: <message>`.  The payload and
MIME type are forwarded to the provider call and do not affect control
flow. -/
def recognize_from_base64 (limit : Nat) (st : OcrState) (og : GeminiOutcome)
    (oa : AnthOutcome) (_image_base64 _mime_type : PyStr) :
    (List PyStr × PyStr) × List Event :=
  match st.provider with
  | none => (([], notConfiguredMsg), [])
  | some k =>
    match recognize_dispatch limit k og oa with
    | .ok r => (r, [.providerCall k])
    | .error m => (([], recognizeFailHead ++ m), [.providerCall k])

/-- Filesystem oracle: a path's byte content, or `none` when no file
exists at the path. -/
def FileSystem := PyStr → Option (List Nat)

def fileNotFoundHead : PyStr := "文件不存在: ".data

def b64Alphabet : PyStr :=
  "ABCDEFGHIJKLMNOPQRSTUVWXYZabcdefghijklmnopqrstuvwxyz0123456789+/".data

def b64Char (n : Nat) : Char := b64Alphabet.getD n '='

/-- Embeds `base64.b64encode` (standard alphabet, `=`-padded). -/
def base64Encode : List Nat → PyStr
  | [] => []
  | [a] => [b64Char (a / 4), b64Char ((a % 4) * 16), '=', '=']
  | [a, b] => [b64Char (a / 4), b64Char ((a % 4) * 16 + b / 16),
      b64Char ((b % 16) * 4), '=']
  | a :: b :: c :: rest =>
    [b64Char (a / 4), b64Char ((a % 4) * 16 + b / 16),
      b64Char ((b % 16) * 4 + c / 64), b64Char (c % 64)] ++ base64Encode rest

/-- Embeds `Path(file_path).name` (POSIX): the last nonempty slash-separated
component. -/
def pathName (p : PyStr) : PyStr :=
  ((p.splitOn '/').filter (fun seg => ! seg.isEmpty)).getLastD []

/-- Embeds `Path(file_path).suffix`: from the last dot of the name, when that
dot is neither the first nor the last character of the name. -/
def pathSuffix (p : PyStr) : PyStr :=
  match ((List.range (pathName p).length).filter
      (fun i => (pathName p).getD i ' ' == '.')).getLast? with
  | some i =>
    if 0 < i ∧ i < (pathName p).length - 1 then (pathName p).drop i else []
  | none => []

/-- The extension-to-MIME table of `recognize_from_file`, applied to the
lowercased suffix, with `image/png` as the default. -/
def mimeOf (path : PyStr) : PyStr :=
  if (pathSuffix path).map Char.toLower == ".png".data then "image/png".data
  else if (pathSuffix path).map Char.toLower == ".jpg".data then "image/jpeg".data
  else if (pathSuffix path).map Char.toLower == ".jpeg".data then "image/jpeg".data
  else if (pathSuffix path).map Char.toLower == ".gif".data then "image/gif".data
  else if (pathSuffix path).map Char.toLower == ".webp".data then "image/webp".data
  else "image/png".data

/-- Embeds `recognize_from_file`: a missing file short-circuits with the
file-not-found message — nothing is read and no provider call happens
(empty event log); otherwise the bytes are read, base64-encoded, the MIME
type inferred from the extension, and `recognize_from_base64` runs. -/
def recognize_from_file (limit : Nat) (fs : FileSystem) (st : OcrState)
    (og : GeminiOutcome) (oa : AnthOutcome) (file_path : PyStr) :
    (List PyStr × PyStr) × List Event :=
  match fs file_path with
  | none => (([], fileNotFoundHead ++ file_path), [])
  | some bytes =>
    ((recognize_from_base64 limit st og oa (base64Encode bytes) (mimeOf file_path)).1,
      .readFile file_path
        :: (recognize_from_base64 limit st og oa (base64Encode bytes) (mimeOf file_path)).2)

/-- Schema `OcrRequest` of `api/v1/schemas/ocr.py`. -/
structure OcrRequest where
  image_base64 : PyStr
  mime_type : PyStr
  deriving DecidableEq

/-- Schema `OcrResponse` of `api/v1/schemas/ocr.py`. -/
structure OcrResponse where
  success : Bool
  codes : List PyStr
  count : Nat
  provider : Option PyStr
  error : Option PyStr
  deriving DecidableEq

/-- One handler invocation: either something inside the `try` raised
(service construction at first use), or the service state and the
provider-call oracles. -/
inductive HandlerInput where
  | raises (msg : PyStr)
  | normal (st : OcrState) (og : GeminiOutcome) (oa : AnthOutcome) (req : OcrRequest)

def handlerErrHead : PyStr := "识别过程发生错误: ".data

/-- Embeds `recognize_stock_codes` (POST `/api/v1/ocr/recognize`). -/
def recognize_stock_codes (limit : Nat) : HandlerInput → OcrResponse
  | .raises m => ⟨false, [], 0, none, some (handlerErrHead ++ m)⟩
  | .normal st og oa req =>
    if ! is_available st then
      ⟨false, [], 0, none, some notConfiguredMsg⟩
    else
      if ! (recognize_from_base64 limit st og oa
          req.image_base64 req.mime_type).1.2.isEmpty then
        ⟨false, [], 0, get_provider st,
          some (recognize_from_base64 limit st og oa req.image_base64 req.mime_type).1.2⟩
      else
        ⟨true, (recognize_from_base64 limit st og oa req.image_base64 req.mime_type).1.1,
          (recognize_from_base64 limit st og oa req.image_base64 req.mime_type).1.1.length,
          get_provider st, none⟩

/-! Claims about the recognize layer and the endpoint. -/

/-- Claim C7: with no provider bound (`is_available()` false),
`recognize_from_base64` returns the empty list and the non-empty
not-configured message — which names both expected credential environment
variables — and performs no provider call (empty event log). -/
theorem recognize_unconfigured (limit : Nat) (st : OcrState) (og : GeminiOutcome)
    (oa : AnthOutcome) (b64 mime : PyStr) (h : is_available st = false) :
    recognize_from_base64 limit st og oa b64 mime = (([], notConfiguredMsg), [])
    ∧ ¬ notConfiguredMsg = []
    ∧ (firstOccurrence ("GEMINI_API_KEY".data) notConfiguredMsg).isSome = true
    ∧ (firstOccurrence ("ANTHROPIC_API_KEY".data) notConfiguredMsg).isSome = true := by
  refine ⟨?_, by decide, by decide, by decide⟩
  have hp : st.provider = none := by
    cases hs : st.provider with
    | none => rfl
    | some k =>
      rw [is_available, hs] at h
      exact absurd h (by simp)
  unfold recognize_from_base64
  rw [hp]

theorem recognize_unconfigured_witness :
    recognize_from_base64 1000 ⟨none⟩ (.resp []) (.resp []) [] []
      = (([], notConfiguredMsg), [])
    ∧ ¬ notConfiguredMsg = []
    ∧ (firstOccurrence ("GEMINI_API_KEY".data) notConfiguredMsg).isSome = true
    ∧ (firstOccurrence ("ANTHROPIC_API_KEY".data) notConfiguredMsg).isSome = true :=
  recognize_unconfigured 1000 ⟨none⟩ (.resp []) (.resp []) [] [] rfl

/-- Claim C8: if the dispatched provider call — or any step of the
subsequent parsing — raises with message `m`, `recognize_from_base64`
catches it and returns the empty list with `识别失败: <m>`; no exception
escapes the recognize boundary (the function is total and returns this
pair). -/
theorem recognize_catches_exceptions (limit : Nat) (st : OcrState) (og : GeminiOutcome)
    (oa : AnthOutcome) (b64 mime : PyStr) (k : ProviderKind) (m : PyStr)
    (hk : st.provider = some k) (hd : recognize_dispatch limit k og oa = .error m) :
    recognize_from_base64 limit st og oa b64 mime
      = (([], recognizeFailHead ++ m), [.providerCall k]) := by
  unfold recognize_from_base64
  rw [hk]
  dsimp only
  rw [hd]

theorem recognize_catches_exceptions_witness :
    recognize_from_base64 1000 ⟨some .gemini⟩ (.raises ("boom".data)) (.resp []) [] []
      = (([], recognizeFailHead ++ "boom".data), [.providerCall .gemini]) :=
  recognize_catches_exceptions 1000 ⟨some .gemini⟩ (.raises ("boom".data)) (.resp [])
    [] [] .gemini ("boom".data) rfl rfl

/-- Claim C10: for every path at which no file exists,
`recognize_from_file` returns the empty list paired with
`文件不存在: <path>`, reads no bytes and performs no provider call (empty
event log), and raises nothing (the function is total). -/
theorem recognize_from_file_missing (limit : Nat) (fs : FileSystem) (st : OcrState)
    (og : GeminiOutcome) (oa : AnthOutcome) (p : PyStr) (h : fs p = none) :
    recognize_from_file limit fs st og oa p = (([], fileNotFoundHead ++ p), []) := by
  unfold recognize_from_file
  rw [h]

theorem recognize_from_file_missing_witness :
    recognize_from_file 1000 (fun _ => none) ⟨some .gemini⟩ (.resp []) (.resp [])
      ("shot.png".data)
      = (([], fileNotFoundHead ++ "shot.png".data), []) :=
  recognize_from_file_missing 1000 (fun _ => none) ⟨some .gemini⟩ (.resp []) (.resp [])
    ("shot.png".data) rfl

/-- Claim C9: every response the handler produces — on the unavailable,
recognition-error, success and caught-exception branches alike — has
`count` equal to the length of `codes`, and `success` is true iff `error`
is `None`. -/
theorem endpoint_response_invariant (limit : Nat) (inp : HandlerInput) :
    (recognize_stock_codes limit inp).count
      = (recognize_stock_codes limit inp).codes.length
    ∧ ((recognize_stock_codes limit inp).success = true
        ↔ (recognize_stock_codes limit inp).error = none) := by
  cases inp with
  | raises m => simp [recognize_stock_codes]
  | normal st og oa req =>
    unfold recognize_stock_codes
    dsimp only
    by_cases ha : is_available st = true
    · rw [if_neg (by simp [ha])]
      by_cases he : (recognize_from_base64 limit st og oa
          req.image_base64 req.mime_type).1.2.isEmpty = true
      · rw [if_neg (by simp [he])]
        simp
      · rw [if_pos (by simp [he])]
        simp
    · rw [if_pos (by simp [eq_false_of_ne_true ha])]
      simp

/-- Claim C2 counterexample: when the provider's raw text is
`'\x7b"codes": ["999999"]\x7d'` — a decodable JSON candidate list whose only
entry fails validation — the parser returns `([], "")`, and the endpoint
answers `success=true` with an EMPTY codes list and `error=None`,
contradicting both parts of the claim. -/
theorem endpoint_success_empty_codes_cex :
    recognize_stock_codes 1000 (.normal ⟨some .gemini⟩
        (.resp ("\x7b\"codes\": [\"999999\"]\x7d".data)) (.resp [])
        ⟨"img".data, "image/png".data⟩)
      = ⟨true, [], 0, some ("gemini".data), none⟩ := rfl

/-- The parser's error string is empty or the no-valid-code message. -/
theorem parse_response_ok_error {limit : Nat} {raw : PyStr} {codes : List PyStr}
    {e : PyStr} (h : parse_response limit raw = .ok (codes, e)) :
    e = [] ∨ e = noValidMsg := by
  unfold parse_response parse_fallback at h
  cases hj : jsonSearch raw with
  | none =>
    rw [hj] at h
    dsimp only at h
    split at h
    · exact .inl (by injection h with h1; injection h1 with h2 h3; exact h3.symm)
    · exact .inr (by injection h with h1; injection h1 with h2 h3; exact h3.symm)
  | some jstr =>
    rw [hj] at h
    dsimp only at h
    cases hl : jsonLoads limit jstr with
    | error err =>
      rw [hl] at h
      cases err
      · dsimp only at h
        split at h
        · exact .inl (by injection h with h1; injection h1 with h2 h3; exact h3.symm)
        · exact .inr (by injection h with h1; injection h1 with h2 h3; exact h3.symm)
      · exact absurd h (by simp)
    | ok v =>
      rw [hl] at h
      dsimp only at h
      split at h
      · split at h
        · exact .inl (by injection h with h1; injection h1 with h2 h3; exact h3.symm)
        · exact absurd h (by simp)
      · split at h
        · exact .inl (by injection h with h1; injection h1 with h2 h3; exact h3.symm)
        · exact .inr (by injection h with h1; injection h1 with h2 h3; exact h3.symm)

/-- Claim C2 (amended): when the OCR core runs to completion with zero
codes AND a non-empty error — the empty-extraction path — that error can
only be the no-valid-code message and the endpoint responds
`success=false` with it.  But zero codes does NOT imply a failure
response: when phase 1 decodes a non-empty candidate list that entirely
fails validation, the parser returns `([], "")` and the endpoint responds
`success=true` with an empty codes list (see the counterexample). -/
theorem endpoint_zero_codes_error_response (limit : Nat) (st : OcrState)
    (og : GeminiOutcome) (oa : AnthOutcome) (req : OcrRequest) (k : ProviderKind)
    (raw e : PyStr) (hk : st.provider = some k)
    (hcall : recognize_dispatch limit k og oa = parse_response limit raw)
    (hparse : parse_response limit raw = .ok ([], e)) (he : ¬ e = []) :
    e = noValidMsg
    ∧ recognize_stock_codes limit (.normal st og oa req)
      = ⟨false, [], 0, get_provider st, some noValidMsg⟩ := by
  have hmsg : e = noValidMsg := by
    rcases parse_response_ok_error hparse with h1 | h1
    · exact absurd h1 he
    · exact h1
  refine ⟨hmsg, ?_⟩
  have hrec : recognize_from_base64 limit st og oa req.image_base64 req.mime_type
      = (([], noValidMsg), [.providerCall k]) := by
    unfold recognize_from_base64
    rw [hk]
    dsimp only
    rw [hcall, hparse, hmsg]
  unfold recognize_stock_codes
  dsimp only
  rw [if_neg (by simp [is_available, hk]), hrec]
  rw [if_pos (by rw [hmsg] at he; simp [he])]

theorem endpoint_zero_codes_error_response_witness :
    noValidMsg = noValidMsg
    ∧ recognize_stock_codes 1000 (.normal ⟨some .gemini⟩
        (.resp ("no codes at all".data)) (.resp []) ⟨[], "image/png".data⟩)
      = ⟨false, [], 0, some ("gemini".data), some noValidMsg⟩ :=
  endpoint_zero_codes_error_response 1000 ⟨some .gemini⟩
    (.resp ("no codes at all".data)) (.resp []) ⟨[], "image/png".data⟩ .gemini
    ("no codes at all".data) noValidMsg rfl rfl rfl (by decide)
